import Mathlib

/-!
Verification of the Atlas Edge durable record queue and sync engine.

Shallow embedding of `src/services/offline_storage.py` (the record store),
`src/services/api_sync.py` (the sync engine) and
`src/attendance_service.py` (the orchestrator).

Records are Python dicts; the fields the store and engine logic read are
`card_id`, `timestamp` and `synced`.  The `synced` key may be absent, which
the code distinguishes from being present (`record.get('synced', False)` vs
`'synced' not in record`), so it is modelled as `Option Bool`.  `card_id`
and `timestamp` are always written by the reader and always read with plain
indexing in the paths modelled here, so they are plain strings.
-/

namespace AtlasEdge

structure AttendanceRecord where
  cardId : String
  timestamp : String
  synced : Option Bool
deriving DecidableEq, Repr

/-- The record store file content: an insertion-ordered list of records. -/
abbrev Store := List AttendanceRecord

/-- Mirrors `record.get('synced', False)`. -/
def getSynced (r : AttendanceRecord) : Bool :=
  r.synced.getD false

/-- Mirrors `if 'synced' not in record: record['synced'] = False`
(`add_record`, offline_storage.py lines 74-75). -/
def withSyncedDefault (r : AttendanceRecord) : AttendanceRecord :=
  match r.synced with
  | none => ⟨r.cardId, r.timestamp, some false⟩
  | some _ => r

/-- Mirrors the Python slice `records[-n:]` (offline_storage.py line 82).
Note the Python quirk: for `n = 0`, `-0 == 0` and `records[-0:]` is the
whole list, not the empty list. -/
def lastSlice (n : Nat) (l : Store) : Store :=
  if n = 0 then l else l.drop (l.length - n)

/-- `OfflineStorage.add_record` (offline_storage.py lines 69-85) as a pure
transformation of the store contents: default the `synced` flag, append,
then trim from the front when the capacity is exceeded. -/
def add_record (maxRecords : Nat) (store : Store) (record : AttendanceRecord) : Store :=
  let record := withSyncedDefault record
  let records := store ++ [record]
  if maxRecords < records.length then lastSlice maxRecords records else records

/-- `OfflineStorage.get_unsynced_records` (offline_storage.py lines 87-92). -/
def get_unsynced_records (store : Store) : Store :=
  store.filter (fun r => !(getSynced r))

/-- One record as updated by the `mark_as_synced` scan: set `synced = True`
when the record's timestamp is among the requested ids. -/
def markOne (ids : List String) (r : AttendanceRecord) : AttendanceRecord :=
  if r.timestamp ∈ ids then ⟨r.cardId, r.timestamp, some true⟩ else r

/-- `OfflineStorage.mark_as_synced` (offline_storage.py lines 94-105). -/
def mark_as_synced (ids : List String) (store : Store) : Store :=
  store.map (markOne ids)

structure StorageStats where
  totalRecords : Nat
  syncedRecords : Nat
  unsyncedRecords : Nat
  maxCapacity : Nat
deriving DecidableEq, Repr

/-- `OfflineStorage.get_stats` (offline_storage.py lines 111-123); the
`storage_file` path entry is configuration echo and is not modelled. -/
def get_stats (maxRecords : Nat) (store : Store) : StorageStats :=
  let synced := store.countP (fun r => getSynced r)
  ⟨store.length, synced, store.length - synced, maxRecords⟩

/-- `OfflineStorage.clear_synced_records` (offline_storage.py lines
125-132): keep the unsynced records, return the new store contents and the
removed count `len(records) - len(unsynced)`. -/
def clear_synced_records (store : Store) : Store × Nat :=
  let unsynced := store.filter (fun r => !(getSynced r))
  (unsynced, store.length - unsynced.length)

/-! ### Persistence outcome of `add_record`

`_write_records` (offline_storage.py lines 59-67) wraps the file write in
`try/except Exception` and only logs on failure; `_read_records` likewise
returns `[]` on a corrupt file.  So `add_record` returns normally on every
path.  The medium state distinguishes a write where `open` itself fails
(file left unchanged) from one where the dump fails after `open('w')`
truncated the file (file left corrupt, subsequently read back as `[]`). -/

inductive PersistenceError where
  | unavailable
deriving DecidableEq, Repr

inductive MediumState where
  | available
  | openFails
  | dumpFails
deriving DecidableEq, Repr

/-- `OfflineStorage._write_records` (offline_storage.py lines 59-67): the
resulting file content.  Every exception is caught and logged, so the
function itself never propagates a failure. -/
def write_records (m : MediumState) (file : Store) (records : Store) : Store :=
  match m with
  | .available => records
  | .openFails => file
  | .dumpFails => []

/-- A full `add_record` call against a persistence medium in state `m`:
read the file, append with trimming, write back.  The `Except` layer
records whether an exception escapes to the caller; in the source every
exception is caught inside `_read_records` / `_write_records`, so the
result is always `Except.ok` with the new file content. -/
def add_record_run (m : MediumState) (maxRecords : Nat) (file : Store)
    (record : AttendanceRecord) : Except PersistenceError Store :=
  Except.ok (write_records m file (add_record maxRecords file record))

/-! ### Test fixtures -/

def recA : AttendanceRecord := ⟨"card-A", "2024-01-01T08:00:00", some false⟩

def recB : AttendanceRecord := ⟨"card-B", "2024-01-01T08:05:00", some false⟩

def recC : AttendanceRecord := ⟨"card-C", "2024-01-01T08:10:00", some false⟩

def recD : AttendanceRecord := ⟨"card-D", "2024-01-01T08:15:00", none⟩

/-! ### C1: capacity bound and oldest-first eviction -/

/-- C1: for every store state and record, after `add_record` the store size
never exceeds `max_records`; when adding to a full store the oldest
(front) record is removed regardless of its synced flag; and with capacity
3 and stored records A,B,C, adding D yields [B,C,D].  The hypothesis
`0 < maxRecords` excludes only the degenerate configured capacity 0, for
which the Python slice `records[-0:]` keeps the whole list. -/
theorem add_record_capacity_spec (maxRecords : Nat) (s : Store)
    (r : AttendanceRecord) (hmax : 0 < maxRecords) :
    (add_record maxRecords s r).length ≤ maxRecords ∧
    (s.length = maxRecords →
      add_record maxRecords s r = s.drop 1 ++ [withSyncedDefault r]) ∧
    (∀ A B C D : AttendanceRecord,
      add_record 3 [A, B, C] D = [B, C, withSyncedDefault D]) := by
  refine ⟨?_, ?_, ?_⟩
  · unfold add_record lastSlice
    by_cases h : maxRecords < (s ++ [withSyncedDefault r]).length
    · simp only [h, if_true, Nat.pos_iff_ne_zero.mp hmax, if_false]
      simp only [List.length_drop]
      omega
    · simp only [h, if_false]
      simp only [List.length_append, List.length_singleton] at h ⊢
      omega
  · intro hfull
    unfold add_record lastSlice
    have hlt : maxRecords < (s ++ [withSyncedDefault r]).length := by
      simp [List.length_append, hfull]
    simp only [hlt, if_true, Nat.pos_iff_ne_zero.mp hmax, if_false]
    have hle : (s ++ [withSyncedDefault r]).length - maxRecords = 1 := by
      simp [List.length_append, hfull]
    rw [hle, List.drop_append_of_le_length (by omega)]
  · intro A B C D
    unfold add_record lastSlice
    simp

theorem add_record_capacity_spec_witness :
    0 < 3 ∧
    ((add_record 3 [recA, recB, recC] recD).length ≤ 3 ∧
    ([recA, recB, recC].length = 3 →
      add_record 3 [recA, recB, recC] recD =
        [recA, recB, recC].drop 1 ++ [withSyncedDefault recD]) ∧
    (∀ A B C D : AttendanceRecord,
      add_record 3 [A, B, C] D = [B, C, withSyncedDefault D])) :=
  ⟨by decide, add_record_capacity_spec 3 [recA, recB, recC] recD (by decide)⟩

/-! ### C3: mark_as_synced marks exactly the matching records, ignores
unmatched ids, and is idempotent -/

/-- Helper: a list is `Forall₂`-related to its image under `f` as soon as
the relation holds pointwise at each element. -/
theorem forall₂_map_self {α β : Type} (R : α → β → Prop) (f : α → β) :
    ∀ l : List α, (∀ a ∈ l, R a (f a)) → List.Forall₂ R l (l.map f) := by
  intro l
  induction l with
  | nil => intro _; exact List.Forall₂.nil
  | cons a t ih =>
    intro h
    exact List.Forall₂.cons (h a (by simp)) (ih fun x hx => h x (by simp [hx]))

/-- C3: `mark_as_synced` preserves the store length, sets `synced = true`
on exactly the records whose timestamp is in the id list (leaving every
other record untouched), silently ignores ids matching no record (marking
with such ids is a no-op, not an error), and is idempotent. -/
theorem mark_as_synced_spec (s : Store) (ids extra : List String)
    (h : ∀ r ∈ s, r.timestamp ∉ extra) :
    (mark_as_synced ids s).length = s.length ∧
    List.Forall₂ (fun r r' =>
      (r.timestamp ∈ ids → r' = ⟨r.cardId, r.timestamp, some true⟩) ∧
      (r.timestamp ∉ ids → r' = r)) s (mark_as_synced ids s) ∧
    mark_as_synced extra s = s ∧
    mark_as_synced ids (mark_as_synced ids s) = mark_as_synced ids s := by
  refine ⟨by simp [mark_as_synced], ?_, ?_, ?_⟩
  · apply forall₂_map_self
    intro r _
    constructor
    · intro hmem
      simp [markOne, hmem]
    · intro hmem
      simp [markOne, hmem]
  · have : ∀ r ∈ s, markOne extra r = r := by
      intro r hr
      simp [markOne, h r hr]
    calc mark_as_synced extra s = s.map id := List.map_congr_left this
    _ = s := List.map_id s
  · unfold mark_as_synced
    rw [List.map_map]
    apply List.map_congr_left
    intro r _
    by_cases hmem : r.timestamp ∈ ids <;>
      simp [markOne, Function.comp, hmem]

theorem mark_as_synced_spec_witness :
    (∀ r ∈ [recA, recB], r.timestamp ∉ ["no-such-ts"]) ∧
    ((mark_as_synced [recA.timestamp] [recA, recB]).length =
        [recA, recB].length ∧
    List.Forall₂ (fun r r' =>
      (r.timestamp ∈ [recA.timestamp] →
        r' = ⟨r.cardId, r.timestamp, some true⟩) ∧
      (r.timestamp ∉ [recA.timestamp] → r' = r)) [recA, recB]
      (mark_as_synced [recA.timestamp] [recA, recB]) ∧
    mark_as_synced ["no-such-ts"] [recA, recB] = [recA, recB] ∧
    mark_as_synced [recA.timestamp]
        (mark_as_synced [recA.timestamp] [recA, recB]) =
      mark_as_synced [recA.timestamp] [recA, recB]) :=
  ⟨by decide,
   mark_as_synced_spec [recA, recB] [recA.timestamp] ["no-such-ts"] (by decide)⟩

/-! ### C4: clear_synced_records removes exactly the synced records -/

/-- Helper: counting after a filter keeps the count of elements satisfying
the predicate and zeroes the others. -/
theorem count_filter_spec (p : AttendanceRecord → Bool) (s : Store)
    (r : AttendanceRecord) :
    (s.filter p).count r = if p r then s.count r else 0 := by
  induction s with
  | nil => by_cases h : p r <;> simp [h]
  | cons a t ih =>
    by_cases hpa : p a
    · by_cases har : a = r
      · subst har
        simp [List.filter_cons, hpa, List.count_cons, ih]
      · have : (a == r) = false := by simp [har]
        simp [List.filter_cons, hpa, List.count_cons, ih, this]
    · by_cases har : a = r
      · subst har
        simp [List.filter_cons, hpa, List.count_cons, ih]
      · have : (a == r) = false := by simp [har]
        simp [List.filter_cons, hpa, List.count_cons, ih, this]

/-- Helper: the removed count `len(records) - len(unsynced)` equals the
number of synced records. -/
theorem length_sub_filter_not (s : Store) :
    s.length - (s.filter (fun r => !(getSynced r))).length =
      (s.filter (fun r => getSynced r)).length := by
  induction s with
  | nil => simp
  | cons a t ih =>
    have hle := List.length_filter_le (fun r => !(getSynced r)) t
    by_cases h : getSynced a <;>
      simp [List.filter_cons, h] <;> omega

/-- Helper: clearing a store with no synced record is a no-op returning 0. -/
theorem clear_synced_records_noop (t : Store)
    (h : ∀ r ∈ t, getSynced r = false) :
    clear_synced_records t = (t, 0) := by
  unfold clear_synced_records
  have hfilter : t.filter (fun r => !(getSynced r)) = t :=
    List.filter_eq_self.mpr (by intro a ha; simp [h a ha])
  simp [hfilter]

/-- C4: `clear_synced_records` keeps a subsequence of the store (relative
order preserved), removes exactly the records with `synced = true` (count
characterisation, duplicate-safe) and none with `synced = false`, returns
the number of synced records removed, is a no-op returning 0 on a store
with no synced record, and a repeated call right after it removes nothing. -/
theorem clear_synced_records_spec (s t : Store)
    (h : ∀ r ∈ t, getSynced r = false) :
    ((clear_synced_records s).1).Sublist s ∧
    (∀ r : AttendanceRecord,
      (clear_synced_records s).1.count r =
        if getSynced r then 0 else s.count r) ∧
    (clear_synced_records s).2 =
      (s.filter (fun r => getSynced r)).length ∧
    clear_synced_records t = (t, 0) ∧
    clear_synced_records (clear_synced_records s).1 =
      ((clear_synced_records s).1, 0) := by
  refine ⟨List.filter_sublist s, ?_, length_sub_filter_not s, ?_, ?_⟩
  · intro r
    have hcf := count_filter_spec (fun x => !(getSynced x)) s r
    rw [show (clear_synced_records s).1 = s.filter (fun x => !(getSynced x))
      from rfl]
    rw [hcf]
    cases hgs : getSynced r <;> simp [hgs]
  · exact clear_synced_records_noop t h
  · apply clear_synced_records_noop
    intro r hr
    have := List.of_mem_filter hr
    simpa using this

theorem clear_synced_records_spec_witness :
    (∀ r ∈ [recA, recD], getSynced r = false) ∧
    (((clear_synced_records [recA, ⟨"card-B", "tB", some true⟩]).1).Sublist
        [recA, ⟨"card-B", "tB", some true⟩] ∧
    (∀ r : AttendanceRecord,
      (clear_synced_records [recA, ⟨"card-B", "tB", some true⟩]).1.count r =
        if getSynced r then 0
        else [recA, ⟨"card-B", "tB", some true⟩].count r) ∧
    (clear_synced_records [recA, ⟨"card-B", "tB", some true⟩]).2 =
      ([recA, ⟨"card-B", "tB", some true⟩].filter
        (fun r => getSynced r)).length ∧
    clear_synced_records [recA, recD] = ([recA, recD], 0) ∧
    clear_synced_records
        (clear_synced_records [recA, ⟨"card-B", "tB", some true⟩]).1 =
      ((clear_synced_records [recA, ⟨"card-B", "tB", some true⟩]).1, 0)) :=
  ⟨by decide,
   clear_synced_records_spec [recA, ⟨"card-B", "tB", some true⟩]
     [recA, recD] (by decide)⟩

/-! ### C10: a record lacking the synced field is read as unsynced -/

/-- C10: a stored record with no `synced` key at all is treated as
unsynced at the read interface: `get_unsynced_records` includes it (in
position, exactly as a record with `synced = false`), and `get_stats`
produces the same statistics as if the flag were present and false; the
reported `unsynced_records` count equals the length of the unsynced
subset. -/
theorem missing_synced_read_as_unsynced (pre post : Store)
    (cid ts : String) (maxRecords : Nat) :
    (⟨cid, ts, none⟩ : AttendanceRecord) ∈
      get_unsynced_records (pre ++ ⟨cid, ts, none⟩ :: post) ∧
    get_unsynced_records (pre ++ ⟨cid, ts, none⟩ :: post) =
      get_unsynced_records pre ++ ⟨cid, ts, none⟩ ::
        get_unsynced_records post ∧
    get_unsynced_records (pre ++ ⟨cid, ts, some false⟩ :: post) =
      get_unsynced_records pre ++ ⟨cid, ts, some false⟩ ::
        get_unsynced_records post ∧
    get_stats maxRecords (pre ++ ⟨cid, ts, none⟩ :: post) =
      get_stats maxRecords (pre ++ ⟨cid, ts, some false⟩ :: post) ∧
    (get_stats maxRecords (pre ++ ⟨cid, ts, none⟩ :: post)).unsyncedRecords =
      (get_unsynced_records (pre ++ ⟨cid, ts, none⟩ :: post)).length := by
  refine ⟨?_, ?_, ?_, ?_, ?_⟩
  · simp [get_unsynced_records, getSynced]
  · simp [get_unsynced_records, List.filter_append, List.filter_cons, getSynced]
  · simp [get_unsynced_records, List.filter_append, List.filter_cons, getSynced]
  · simp [get_stats, List.countP_append, List.countP_cons, getSynced]
  · have hsub := length_sub_filter_not (pre ++ ⟨cid, ts, none⟩ :: post)
    have h1 := List.length_filter_le (fun r => getSynced r)
      (pre ++ ⟨cid, ts, none⟩ :: post)
    have h2 := List.length_filter_le (fun r => !(getSynced r))
      (pre ++ ⟨cid, ts, none⟩ :: post)
    simp only [get_stats, get_unsynced_records, List.countP_eq_length_filter]
    omega

/-! ### SyncEngine: `src/services/api_sync.py`

`send_batch_attendance` posts one HTTP request; its observable input is
the transport outcome: either a transport error (`requests` exception,
which also covers a success response whose body is not valid JSON, caught
by the same `except` clause) or a response with a status code and a parsed
JSON body.  Of the body, the code reads only the optional `results` object
with its `records`, `errors`, `successful` and `failed` members, each
defaulted when absent (`result.get(...)`). -/

/-- One entry of `results.records` in the remote reply: the code reads
`r.get('success', False)`, `r.get('timestamp')` and `r.get('card_id')`. -/
structure WireRecordResult where
  success : Bool
  timestamp : Option String
  cardId : Option String
deriving DecidableEq, Repr

/-- One entry of `results.errors` in the remote reply: the code reads
`r.get('card_id')`, `r.get('timestamp')` and `r.get('error')`. -/
structure WireError where
  cardId : Option String
  timestamp : Option String
  error : Option String
deriving DecidableEq, Repr

/-- The `results` object of a parsed batch reply; `successful` / `failed`
are `none` when the remote omitted them (code defaults apply). -/
structure BatchResultsObj where
  records : List WireRecordResult
  errors : List WireError
  successful : Option Nat
  failed : Option Nat
deriving DecidableEq, Repr

/-- Observable outcome of the HTTP POST in `send_batch_attendance`:
`transportError` is a raised `requests.exceptions.RequestException`;
`response status body` is a reply whose JSON body either contains a
`results` object (`some`) or does not (`none`). -/
inductive BatchHttpOutcome where
  | transportError
  | response (status : Nat) (body : Option BatchResultsObj)
deriving DecidableEq, Repr

/-- An error entry of the local batch result dict (api_sync.py lines
173-178). -/
structure BatchErrorEntry where
  cardId : Option String
  timestamp : Option String
  error : String
deriving DecidableEq, Repr

/-- The result dict `{'success', 'failed', 'synced_ids', 'errors'}`.
`synced_ids` entries come from `r.get('timestamp') or r.get('card_id')`
and can be `None` in Python, hence `Option String`. -/
structure BatchResult where
  success : Nat
  failed : Nat
  synced_ids : List (Option String)
  errors : List BatchErrorEntry
deriving DecidableEq, Repr

def zeroBatchResult : BatchResult := ⟨0, 0, [], []⟩

/-- Python `a or b` on two optional strings: `a` unless it is `None` or
the empty string (falsy), otherwise `b`. -/
def pyOr (a b : Option String) : Option String :=
  match a with
  | some s => if s = "" then b else some s
  | none => b

/-- `APISync.send_batch_attendance` (api_sync.py lines 144-206): empty
input short-circuits to the zero result before any request; a 200/201
reply with a `results` object is parsed per record; a 200/201 reply
without one falls back to "all synced"; any other status, and any
transport error, yields "all failed". -/
def send_batch_attendance (outcome : BatchHttpOutcome)
    (records : List AttendanceRecord) : BatchResult :=
  if records = [] then zeroBatchResult
  else
    match outcome with
    | .transportError => ⟨0, records.length, [], []⟩
    | .response status body =>
      if status = 200 ∨ status = 201 then
        match body with
        | some res =>
          ⟨res.successful.getD records.length,
           res.failed.getD 0,
           (res.records.filter (fun r => r.success)).map
             (fun r => pyOr r.timestamp r.cardId),
           res.errors.map
             (fun e => ⟨e.cardId, e.timestamp, e.error.getD "Unknown error"⟩)⟩
        | none =>
          ⟨records.length, 0, records.map (fun r => some r.timestamp), []⟩
      else ⟨0, records.length, [], []⟩

/-- Mirrors `chunk_size = chunk_size or self.batch_size` (api_sync.py line
216): an explicit chunk size is used unless it is falsy (`None` or 0). -/
def effective_chunk_size (batchSize : Nat) (chunkSize : Option Nat) : Nat :=
  match chunkSize with
  | some c => if c = 0 then batchSize else c
  | none => batchSize

/-- Field-wise combination of two chunk results: counts summed, id and
error lists concatenated (api_sync.py lines 232-235). -/
def combineBatch (a b : BatchResult) : BatchResult :=
  ⟨a.success + b.success, a.failed + b.failed,
   a.synced_ids ++ b.synced_ids, a.errors ++ b.errors⟩

/-- The chunk loop of `sync_records_in_chunks` (api_sync.py lines
223-239): each iteration sends the next `k` records through `send` (the
per-chunk behaviour of `send_batch_attendance` against the live remote)
and accumulates the four result fields; the returned list is the exact
sequence of chunks handed to `send`.  Defined for `k ≥ 1`; `chunk_size 0`
would make `range(0, n, 0)` raise in Python and is unreachable through
`effective_chunk_size` unless the configured batch size is itself 0. -/
def sync_chunks_run (send : List AttendanceRecord → BatchResult) (k : Nat)
    (recs : List AttendanceRecord) :
    BatchResult × List (List AttendanceRecord) :=
  match recs with
  | [] => (zeroBatchResult, [])
  | r :: rest =>
    let chunk := r :: rest.take (k - 1)
    let res := sync_chunks_run send k (rest.drop (k - 1))
    (combineBatch (send chunk) res.1, chunk :: res.2)
termination_by recs.length
decreasing_by simp [List.length_drop]; omega

/-- `APISync.sync_records_in_chunks` (api_sync.py lines 208-248). -/
def sync_records_in_chunks (send : List AttendanceRecord → BatchResult)
    (batchSize : Nat) (chunkSize : Option Nat)
    (records : List AttendanceRecord) : BatchResult :=
  if records = [] then zeroBatchResult
  else (sync_chunks_run send (effective_chunk_size batchSize chunkSize)
    records).1

/-- The contiguous chunks of at most `k` records, in order (`records[i:i +
chunk_size]` for `i = 0, k, 2k, ...`). -/
def chunksOf (k : Nat) (recs : List AttendanceRecord) :
    List (List AttendanceRecord) :=
  match recs with
  | [] => []
  | r :: rest => (r :: rest.take (k - 1)) :: chunksOf k (rest.drop (k - 1))
termination_by recs.length
decreasing_by simp [List.length_drop]; omega

/-- Field-wise aggregation of a list of chunk results. -/
def aggregateBatch (rs : List BatchResult) : BatchResult :=
  rs.foldr combineBatch zeroBatchResult

/-- Induction principle following the chunk recursion: a property holds of
every record list once it holds of `[]` and is preserved from
`rest.drop (k - 1)` to `r :: rest`. -/
theorem list_chunk_induction (k : Nat) (P : List AttendanceRecord → Prop)
    (hnil : P [])
    (hcons : ∀ r rest, P (rest.drop (k - 1)) → P (r :: rest)) :
    ∀ recs, P recs := by
  have h : ∀ n (l : List AttendanceRecord), l.length ≤ n → P l := by
    intro n
    induction n with
    | zero =>
      intro l hl
      have hl0 : l = [] := List.length_eq_zero.mp (Nat.le_zero.mp hl)
      rw [hl0]; exact hnil
    | succ n ih =>
      intro l hl
      cases l with
      | nil => exact hnil
      | cons r rest =>
        apply hcons
        apply ih
        rw [List.length_drop]
        simp only [List.length_cons] at hl
        omega
  exact fun recs => h recs.length recs le_rfl

/-- The chunk loop sends exactly the contiguous chunks, in order. -/
theorem sync_chunks_run_snd (send : List AttendanceRecord → BatchResult)
    (k : Nat) :
    ∀ recs, (sync_chunks_run send k recs).2 = chunksOf k recs := by
  apply list_chunk_induction k
  · simp [sync_chunks_run, chunksOf]
  · intro r rest ih
    rw [sync_chunks_run, chunksOf]
    simpa using ih

/-- The chunk loop's result is the field-wise aggregation of the per-chunk
results, in chunk order. -/
theorem sync_chunks_run_fst (send : List AttendanceRecord → BatchResult)
    (k : Nat) :
    ∀ recs, (sync_chunks_run send k recs).1 =
      aggregateBatch ((chunksOf k recs).map send) := by
  apply list_chunk_induction k
  · simp [sync_chunks_run, chunksOf, aggregateBatch]
  · intro r rest ih
    rw [sync_chunks_run, chunksOf]
    simp only [List.map_cons, aggregateBatch, List.foldr_cons]
    rw [ih]
    rfl

/-- Concatenating the chunks gives back the original list, in order. -/
theorem chunksOf_flatten (k : Nat) :
    ∀ recs, (chunksOf k recs).flatten = recs := by
  apply list_chunk_induction k
  · simp [chunksOf]
  · intro r rest ih
    rw [chunksOf]
    simp only [List.flatten_cons, List.cons_append]
    rw [ih, List.take_append_drop]

/-- Nat ceiling-division step used by the chunk count. -/
theorem ceil_div_succ (k n : Nat) (hk : 0 < k) :
    (n + 1 + k - 1) / k = (n + 1 - k + k - 1) / k + 1 := by
  rcases Nat.lt_or_ge n k with h | h
  · have h1 : n + 1 + k - 1 = n + k := by omega
    have h2 : n + 1 - k = 0 := by omega
    rw [h1, h2, Nat.add_div_right n hk, Nat.div_eq_of_lt h]
    have h3 : 0 + k - 1 = k - 1 := by omega
    rw [h3, Nat.div_eq_of_lt (show k - 1 < k by omega)]
  · have h1 : n + 1 + k - 1 = n + k := by omega
    have h2 : n + 1 - k + k - 1 = n := by omega
    rw [h1, h2, Nat.add_div_right n hk]

/-- There are exactly `ceil(N / k)` chunks. -/
theorem chunksOf_length (k : Nat) (hk : 0 < k) :
    ∀ recs, (chunksOf k recs).length = (recs.length + k - 1) / k := by
  apply list_chunk_induction k
  · rw [chunksOf]
    simp [Nat.div_eq_of_lt (show k - 1 < k by omega)]
  · intro r rest ih
    rw [chunksOf]
    simp only [List.length_cons]
    rw [ih, List.length_drop]
    have h2 : rest.length - (k - 1) = rest.length + 1 - k := by omega
    rw [h2, ceil_div_succ k rest.length hk]

/-- Every chunk holds at most `k` records. -/
theorem chunksOf_le (k : Nat) (hk : 0 < k) :
    ∀ recs, ∀ c ∈ chunksOf k recs, c.length ≤ k := by
  apply list_chunk_induction k
  · simp [chunksOf]
  · intro r rest ih c hc
    rw [chunksOf] at hc
    rcases List.mem_cons.mp hc with hc | hc
    · rw [hc]
      simp only [List.length_cons, List.length_take]
      omega
    · exact ih c hc

/-! ### Scenario fixture for the chunked-sync run: chunk [A,B] fully
succeeds, chunk [C] fails -/

def exampleSend (chunk : List AttendanceRecord) : BatchResult :=
  if chunk = [recA, recB] then
    ⟨2, 0, [some recA.timestamp, some recB.timestamp], []⟩
  else if chunk = [recC] then
    ⟨0, 1, [], [⟨some recC.cardId, some recC.timestamp, "server rejected"⟩]⟩
  else zeroBatchResult

theorem chunksOf_two_example :
    chunksOf 2 [recA, recB, recC] = [[recA, recB], [recC]] := by
  rw [chunksOf]
  simp only [List.take_succ_cons, List.take_zero, List.drop_succ_cons,
    List.drop_zero]
  rw [chunksOf]
  simp only [List.take_succ_cons, List.take_nil, List.drop_succ_cons,
    List.drop_nil]
  rw [chunksOf]

/-! ### C2: chunked sync call count, order preservation, aggregation -/

/-- C2: for a non-empty input and chunk size `k > 0`, the chunk loop hands
`send_batch_attendance` exactly the contiguous chunks (each of at most `k`
records), there are exactly `ceil(N / k)` of them, their concatenation is
the original input in order, and the returned dict is the field-wise
aggregation over all chunks (counts summed, `synced_ids` and `errors`
concatenated in chunk order, a failed chunk never stopping later chunks);
in particular for records A,B,C with chunk size 2, where [A,B] fully
succeeds and [C] fails, the result is success 2, failed 1, synced ids
[A,B]. -/
theorem sync_records_in_chunks_spec
    (send : List AttendanceRecord → BatchResult) (bs k : Nat)
    (recs : List AttendanceRecord) (hk : 0 < k) (hne : recs ≠ []) :
    (sync_chunks_run send k recs).2 = chunksOf k recs ∧
    (chunksOf k recs).length = (recs.length + k - 1) / k ∧
    (chunksOf k recs).flatten = recs ∧
    (∀ c ∈ chunksOf k recs, c.length ≤ k) ∧
    sync_records_in_chunks send bs (some k) recs =
      aggregateBatch ((chunksOf k recs).map send) ∧
    sync_records_in_chunks exampleSend 50 (some 2) [recA, recB, recC] =
      ⟨2, 1, [some recA.timestamp, some recB.timestamp],
       [⟨some recC.cardId, some recC.timestamp, "server rejected"⟩]⟩ := by
  refine ⟨sync_chunks_run_snd send k recs, chunksOf_length k hk recs,
    chunksOf_flatten k recs, chunksOf_le k hk recs, ?_, ?_⟩
  · rw [sync_records_in_chunks]
    rw [if_neg hne]
    have heff : effective_chunk_size bs (some k) = k := by
      simp [effective_chunk_size, Nat.pos_iff_ne_zero.mp hk]
    rw [heff, sync_chunks_run_fst]
  · rw [sync_records_in_chunks]
    rw [if_neg (by decide : ¬([recA, recB, recC] = []))]
    have heff : effective_chunk_size 50 (some 2) = 2 := by
      simp [effective_chunk_size]
    rw [heff, sync_chunks_run_fst, chunksOf_two_example]
    decide

theorem sync_records_in_chunks_spec_witness :
    0 < 2 ∧ ([recA, recB, recC] : List AttendanceRecord) ≠ [] ∧
    ((sync_chunks_run exampleSend 2 [recA, recB, recC]).2 =
      chunksOf 2 [recA, recB, recC] ∧
    (chunksOf 2 [recA, recB, recC]).length =
      (([recA, recB, recC] : List AttendanceRecord).length + 2 - 1) / 2 ∧
    (chunksOf 2 [recA, recB, recC]).flatten = [recA, recB, recC] ∧
    (∀ c ∈ chunksOf 2 [recA, recB, recC], c.length ≤ 2) ∧
    sync_records_in_chunks exampleSend 50 (some 2) [recA, recB, recC] =
      aggregateBatch ((chunksOf 2 [recA, recB, recC]).map exampleSend) ∧
    sync_records_in_chunks exampleSend 50 (some 2) [recA, recB, recC] =
      ⟨2, 1, [some recA.timestamp, some recB.timestamp],
       [⟨some recC.cardId, some recC.timestamp, "server rejected"⟩]⟩) :=
  ⟨by decide, by decide,
   sync_records_in_chunks_spec exampleSend 50 2 [recA, recB, recC]
     (by decide) (by decide)⟩

/-! ### C5: batch delivery fallback when no per-record results parse -/

/-- C5: for a non-empty batch whose reply carries no per-record `results`
object, the call reports every record synced (all timestamps in
`synced_ids`, success = N, failed = 0) exactly when the HTTP status is the
code's success set {200, 201}; any other status, and any transport error,
reports all records failed with empty `synced_ids`. -/
theorem send_batch_fallback_spec (records : List AttendanceRecord)
    (status : Nat) (hne : records ≠ []) :
    (send_batch_attendance (.response status none) records =
      if status = 200 ∨ status = 201 then
        ⟨records.length, 0, records.map (fun r => some r.timestamp), []⟩
      else ⟨0, records.length, [], []⟩) ∧
    ((∀ r ∈ records, some r.timestamp ∈
        (send_batch_attendance (.response status none) records).synced_ids) ↔
      (status = 200 ∨ status = 201)) ∧
    send_batch_attendance .transportError records =
      ⟨0, records.length, [], []⟩ := by
  refine ⟨?_, ?_, ?_⟩
  · by_cases hs : status = 200 ∨ status = 201 <;>
      simp [send_batch_attendance, hne, hs]
  · by_cases hs : status = 200 ∨ status = 201
    · simp only [send_batch_attendance, if_neg hne, if_pos hs]
      constructor
      · intro _; exact hs
      · intro _ r hr
        exact List.mem_map.mpr ⟨r, hr, rfl⟩
    · simp only [send_batch_attendance, if_neg hne, if_neg hs]
      constructor
      · intro hall
        obtain ⟨r, t, rfl⟩ := List.exists_cons_of_ne_nil hne
        exact absurd (hall r (by simp)) (by simp)
      · intro hs'; exact absurd hs' hs
  · simp [send_batch_attendance, hne]

theorem send_batch_fallback_spec_witness :
    ([recA] : List AttendanceRecord) ≠ [] ∧
    ((send_batch_attendance (.response 503 none) [recA] =
      if 503 = 200 ∨ 503 = 201 then
        ⟨[recA].length, 0, [recA].map (fun r => some r.timestamp), []⟩
      else ⟨0, [recA].length, [], []⟩) ∧
    ((∀ r ∈ [recA], some r.timestamp ∈
        (send_batch_attendance (.response 503 none) [recA]).synced_ids) ↔
      (503 = 200 ∨ 503 = 201)) ∧
    send_batch_attendance .transportError [recA] =
      ⟨0, [recA].length, [], []⟩) :=
  ⟨by decide, send_batch_fallback_spec [recA] 503 (by decide)⟩

/-! ### C9: empty input is a no-op with no network activity -/

/-- C9: on an empty record list, `send_batch_attendance` returns the zero
result whatever the network would have done (it never issues the request),
and `sync_records_in_chunks` returns the zero result having sent zero
chunks. -/
theorem empty_batch_noop (outcome : BatchHttpOutcome)
    (send : List AttendanceRecord → BatchResult) (bs k : Nat)
    (cs : Option Nat) :
    send_batch_attendance outcome [] = zeroBatchResult ∧
    sync_records_in_chunks send bs cs [] = zeroBatchResult ∧
    (sync_chunks_run send k []).2 = [] := by
  refine ⟨by simp [send_batch_attendance], by simp [sync_records_in_chunks],
    ?_⟩
  rw [sync_chunks_run]

/-! ### Orchestrator: `AttendanceService.sync_offline_records`
(attendance_service.py lines 114-172)

The cycle's inputs are the connectivity probe result (`check_connection`,
api_sync.py lines 80-105, a boolean), the live per-chunk behaviour of the
remote (`send`), and the configuration; its effect is a new store content
plus the returned summary dict. -/

structure SyncCycleOutcome where
  synced : Nat
  failed : Nat
  skipped : Bool
  errors : List BatchErrorEntry
deriving DecidableEq, Repr

/-- `AttendanceService.sync_offline_records`: skip entirely when the probe
says offline; otherwise pull the unsynced records, skip when none or below
the `min_records_for_sync` threshold, else sync in chunks of `batch_size`,
mark the returned ids synced (a `None` id never matches any stored
timestamp, hence the `filterMap`), and clear synced records when
`cleanup_after_sync` is on and at least one record succeeded. -/
def sync_offline_records (online : Bool)
    (send : List AttendanceRecord → BatchResult) (batchSize : Nat)
    (minRecords : Nat) (cleanupAfterSync : Bool) (store : Store) :
    Store × SyncCycleOutcome :=
  if !online then (store, ⟨0, 0, true, []⟩)
  else
    let unsynced := get_unsynced_records store
    if unsynced = [] then (store, ⟨0, 0, false, []⟩)
    else if unsynced.length < minRecords then (store, ⟨0, 0, true, []⟩)
    else
      let result := sync_records_in_chunks send batchSize (some batchSize)
        unsynced
      let store1 := if result.synced_ids = [] then store
        else mark_as_synced (result.synced_ids.filterMap id) store
      let store2 := if cleanupAfterSync ∧ 0 < result.success then
        (clear_synced_records store1).1 else store1
      (store2, ⟨result.success, result.failed, false, result.errors⟩)

/-! ### C6: an offline probe makes the cycle a complete no-op on the store -/

/-- C6: when the connectivity probe reports offline at the start of a
periodic sync cycle, the cycle leaves the store untouched — no record is
marked synced, none is removed — so the unsynced set after the cycle is
the unsynced set before it, and the cycle reports itself skipped. -/
theorem offline_cycle_frame (send : List AttendanceRecord → BatchResult)
    (batchSize minRecords : Nat) (cleanupAfterSync : Bool) (store : Store) :
    (sync_offline_records false send batchSize minRecords cleanupAfterSync
      store).1 = store ∧
    get_unsynced_records (sync_offline_records false send batchSize
      minRecords cleanupAfterSync store).1 = get_unsynced_records store ∧
    (sync_offline_records false send batchSize minRecords cleanupAfterSync
      store).2 = ⟨0, 0, true, []⟩ := by
  refine ⟨rfl, ?_, rfl⟩
  rw [show (sync_offline_records false send batchSize minRecords
    cleanupAfterSync store).1 = store from rfl]

/-! ### C7: failure signalling of add_record when the write fails -/

/-- C7 counterexample: with the persistence medium unavailable (the
`open` in `_write_records` raises), `add_record` still returns normally —
`Except.ok` — and the record is silently lost (the file keeps its previous
content, here empty).  This contradicts the claim that the call fails with
a `PersistenceError` whenever the underlying write fails. -/
theorem add_record_write_failure_counterexample :
    add_record_run .openFails 10 [] recA = Except.ok [] ∧
    (add_record_run .openFails 10 [] recA).isOk = true := by
  constructor <;> rfl

/-- C7 amended: `add_record` has no failure path at all.  `_write_records`
catches every exception and only logs it, so the call returns normally
(`Except.ok`) in every medium state; when the write's `open` fails the
stored file is unchanged, when the dump fails after `open('w')` truncated
the file the stored backlog is lost (the corrupt file reads back as
empty), and no `PersistenceError` ever reaches the caller — the caller
cannot tell that the record was not saved. -/
theorem add_record_never_signals (m : MediumState) (maxRecords : Nat)
    (file : Store) (r : AttendanceRecord) :
    (add_record_run m maxRecords file r).isOk = true ∧
    add_record_run .openFails maxRecords file r = Except.ok file ∧
    add_record_run .dumpFails maxRecords file r = Except.ok [] ∧
    add_record_run .available maxRecords file r =
      Except.ok (add_record maxRecords file r) := by
  refine ⟨?_, rfl, rfl, rfl⟩
  cases m <;> rfl

/-! ### C8: the synced flag never transitions back from true to false

The store is mutated only by `add_record`, `mark_as_synced` and
`clear_synced_records`.  `MonoTraceFrom added s s'` states that the
resulting store splits as `kept ++ newRecs` where `kept` consists, in
preserved relative order, of updates of records of `s` with the same
identity fields and a never-lowered `synced` flag, and — crucially —
every record of `newRecs` is accounted for by `added`, the list of
records actually appended by the operations (each a mono-descendant of
some member of `added`).  With `added` empty the whole result store must
therefore descend record-by-record from `s`, so the predicate is not
satisfiable by declaring everything "new": a store step that flipped a
flag from true back to false and appended nothing would falsify it. -/

inductive StoreOp where
  | add (maxRecords : Nat) (r : AttendanceRecord)
  | mark (ids : List String)
  | clear

def applyOp : StoreOp → Store → Store
  | .add maxRecords r, s => add_record maxRecords s r
  | .mark ids, s => mark_as_synced ids s
  | .clear, s => (clear_synced_records s).1

def applyOps (ops : List StoreOp) (s : Store) : Store :=
  ops.foldl (fun s op => applyOp op s) s

/-- The records appended to the store by a sequence of operations, in
order: `add_record` appends exactly `withSyncedDefault r`, the other two
operations append nothing. -/
def addedRecords (ops : List StoreOp) : List AttendanceRecord :=
  ops.filterMap (fun op => match op with
    | StoreOp.add _ r => some (withSyncedDefault r)
    | StoreOp.mark _ => none
    | StoreOp.clear => none)

/-- `r'` is the same record as `r` (identity fields unchanged) with a
`synced` flag that did not go back from true to false. -/
def recMono (r r' : AttendanceRecord) : Prop :=
  r'.cardId = r.cardId ∧ r'.timestamp = r.timestamp ∧
    (getSynced r = true → getSynced r' = true)

/-- Every record of `s'` is either an updated survivor of `s` (order
preserved, flag monotone) or a mono-descendant of a record in `added`;
nothing else may appear in `s'`. -/
def MonoTraceFrom (added : List AttendanceRecord) (s s' : Store) : Prop :=
  ∃ old kept newRecs, old.Sublist s ∧ s' = kept ++ newRecs ∧
    List.Forall₂ recMono old kept ∧
    ∀ n ∈ newRecs, ∃ a ∈ added, recMono a n

theorem recMono_refl (r : AttendanceRecord) : recMono r r :=
  ⟨rfl, rfl, fun h => h⟩

theorem recMono_trans {a b c : AttendanceRecord} (h1 : recMono a b)
    (h2 : recMono b c) : recMono a c :=
  ⟨h2.1.trans h1.1, h2.2.1.trans h1.2.1, fun h => h2.2.2 (h1.2.2 h)⟩

theorem forall₂_mono_refl : ∀ l : Store, List.Forall₂ recMono l l := by
  intro l
  induction l with
  | nil => exact List.Forall₂.nil
  | cons a t ih => exact List.Forall₂.cons (recMono_refl a) ih

theorem forall₂_mono_comp : ∀ {a b c : Store},
    List.Forall₂ recMono a b → List.Forall₂ recMono b c →
    List.Forall₂ recMono a c := by
  intro a b c h1
  induction h1 generalizing c with
  | nil =>
    intro h2
    cases h2
    exact List.Forall₂.nil
  | cons hxy h1' ih =>
    intro h2
    cases h2 with
    | cons hyz h2' =>
      exact List.Forall₂.cons (recMono_trans hxy hyz) (ih h2')

/-- A sublist of the updated side of a `Forall₂ recMono` pulls back to a
sublist of the original side. -/
theorem forall₂_sublist_pullback : ∀ {a b c : Store},
    List.Forall₂ recMono a b → c.Sublist b →
    ∃ d, d.Sublist a ∧ List.Forall₂ recMono d c := by
  intro a b c hf
  induction hf generalizing c with
  | nil =>
    intro hs
    rw [List.sublist_nil.mp hs]
    exact ⟨[], List.Sublist.refl [], List.Forall₂.nil⟩
  | @cons x y xs ys hxy hf' ih =>
    intro hs
    cases hs with
    | cons _ hs' =>
      obtain ⟨d, hd, hfd⟩ := ih hs'
      exact ⟨d, hd.cons x, hfd⟩
    | cons₂ _ hs' =>
      obtain ⟨d, hd, hfd⟩ := ih hs'
      exact ⟨x :: d, hd.cons₂ x, List.Forall₂.cons hxy hfd⟩

/-- A `Forall₂ recMono` whose left side is an append splits the right side
accordingly. -/
theorem forall₂_append_split_left : ∀ {a b c : Store},
    List.Forall₂ recMono (a ++ b) c →
    ∃ c₁ c₂, c = c₁ ++ c₂ ∧ List.Forall₂ recMono a c₁ ∧
      List.Forall₂ recMono b c₂ := by
  intro a
  induction a with
  | nil =>
    intro b c h
    exact ⟨[], c, rfl, List.Forall₂.nil, h⟩
  | cons x xs ih =>
    intro b c h
    cases h with
    | cons hxy h' =>
      obtain ⟨c₁, c₂, rfl, hf₁, hf₂⟩ := ih h'
      exact ⟨_ :: c₁, c₂, rfl, List.Forall₂.cons hxy hf₁, hf₂⟩

/-- Every element of the updated side of a `Forall₂ recMono` has a
mono-ancestor on the original side. -/
theorem forall₂_mem_right : ∀ {xs ys : Store},
    List.Forall₂ recMono xs ys → ∀ y ∈ ys, ∃ x ∈ xs, recMono x y := by
  intro xs ys h
  induction h with
  | nil =>
    intro y hy
    simp at hy
  | @cons x y xs ys hxy h' ih =>
    intro z hz
    rcases List.mem_cons.mp hz with rfl | hz'
    · exact ⟨x, by simp, hxy⟩
    · obtain ⟨x', hx', hm⟩ := ih z hz'
      exact ⟨x', by simp [hx'], hm⟩

theorem addedRecords_cons (op : StoreOp) (ops : List StoreOp) :
    addedRecords (op :: ops) = addedRecords [op] ++ addedRecords ops := by
  cases op <;> simp [addedRecords, List.filterMap_cons]

theorem monoTraceFrom_refl (added : List AttendanceRecord) (s : Store) :
    MonoTraceFrom added s s :=
  ⟨s, s, [], List.Sublist.refl s, (List.append_nil s).symm,
   forall₂_mono_refl s, by simp⟩

theorem monoTraceFrom_trans {A B : List AttendanceRecord}
    {s s' s'' : Store} (h1 : MonoTraceFrom A s s')
    (h2 : MonoTraceFrom B s' s'') : MonoTraceFrom (A ++ B) s s'' := by
  obtain ⟨o₁, k₁, n₁, ho₁, rfl, hf₁, hn₁⟩ := h1
  obtain ⟨o₂, k₂, n₂, ho₂, heq, hf₂, hn₂⟩ := h2
  obtain ⟨a, b, rfl, ha, hb⟩ := List.sublist_append_iff.mp ho₂
  obtain ⟨ka, kb, rfl, hfa, hfb⟩ := forall₂_append_split_left hf₂
  obtain ⟨d, hd, hfd⟩ := forall₂_sublist_pullback hf₁ ha
  refine ⟨d, ka, kb ++ n₂, hd.trans ho₁,
    by rw [heq, List.append_assoc], forall₂_mono_comp hfd hfa, ?_⟩
  intro n hn
  rcases List.mem_append.mp hn with hnk | hnn
  · obtain ⟨x, hx, hmx⟩ := forall₂_mem_right hfb n hnk
    obtain ⟨a0, ha0, hma⟩ := hn₁ x (hb.subset hx)
    exact ⟨a0, List.mem_append_left B ha0, recMono_trans hma hmx⟩
  · obtain ⟨a0, ha0, hma⟩ := hn₂ n hnn
    exact ⟨a0, List.mem_append_right A ha0, hma⟩

theorem monoTraceFrom_mark (ids : List String) (s : Store) :
    MonoTraceFrom [] s (mark_as_synced ids s) := by
  refine ⟨s, mark_as_synced ids s, [], List.Sublist.refl s,
    (List.append_nil _).symm, ?_, by simp⟩
  apply forall₂_map_self
  intro r _
  unfold markOne
  by_cases h : r.timestamp ∈ ids
  · rw [if_pos h]
    exact ⟨rfl, rfl, fun _ => rfl⟩
  · rw [if_neg h]
    exact recMono_refl r

theorem monoTraceFrom_clear (s : Store) :
    MonoTraceFrom [] s ((clear_synced_records s).1) :=
  ⟨(clear_synced_records s).1, (clear_synced_records s).1, [],
   List.filter_sublist s, (List.append_nil _).symm,
   forall₂_mono_refl _, by simp⟩

theorem singleton_new_ok (r : AttendanceRecord) :
    ∀ n ∈ [withSyncedDefault r], ∃ a ∈ [withSyncedDefault r],
      recMono a n := by
  intro n hn
  rw [List.mem_singleton.mp hn]
  exact ⟨withSyncedDefault r, by simp, recMono_refl _⟩

theorem monoTraceFrom_add (maxRecords : Nat) (s : Store)
    (r : AttendanceRecord) :
    MonoTraceFrom [withSyncedDefault r] s (add_record maxRecords s r) := by
  unfold add_record lastSlice
  by_cases h1 : maxRecords < (s ++ [withSyncedDefault r]).length
  · rw [if_pos h1]
    by_cases h0 : maxRecords = 0
    · rw [if_pos h0]
      exact ⟨s, s, [withSyncedDefault r], List.Sublist.refl s, rfl,
        forall₂_mono_refl s, singleton_new_ok r⟩
    · rw [if_neg h0]
      have hd : (s ++ [withSyncedDefault r]).length - maxRecords ≤
          s.length := by
        simp only [List.length_append, List.length_singleton]
        omega
      rw [List.drop_append_of_le_length hd]
      exact ⟨s.drop ((s ++ [withSyncedDefault r]).length - maxRecords),
        s.drop ((s ++ [withSyncedDefault r]).length - maxRecords),
        [withSyncedDefault r], List.drop_sublist _ s, rfl,
        forall₂_mono_refl _, singleton_new_ok r⟩
  · rw [if_neg h1]
    exact ⟨s, s, [withSyncedDefault r], List.Sublist.refl s, rfl,
      forall₂_mono_refl s, singleton_new_ok r⟩

/-- C8: across every sequence of store operations (`add_record`,
`mark_as_synced`, `clear_synced_records`), the resulting store decomposes
into order-preserved mono-updates of starting records plus records
appended by the sequence itself (`MonoTraceFrom`), and consequently every
record in the resulting store mono-descends from a starting record or
from an appended one: same identity fields, `synced` transitioning only
false→true, never true→false, while the record remains in the store.
Since the second conjunct quantifies over all members of the result and
`recMono` forbids lowering the flag, a record stored with `synced = true`
can never reappear with `synced = false` unless an identical record was
freshly appended; instantiating `s` at any intermediate state extends the
guarantee to records added mid-sequence. -/
theorem synced_flag_monotone (ops : List StoreOp) (s : Store) :
    MonoTraceFrom (addedRecords ops) s (applyOps ops s) ∧
    ∀ r' ∈ applyOps ops s,
      (∃ r ∈ s, recMono r r') ∨ ∃ a ∈ addedRecords ops, recMono a r' := by
  have main : ∀ (ops : List StoreOp) (s : Store),
      MonoTraceFrom (addedRecords ops) s (applyOps ops s) := by
    intro ops
    induction ops with
    | nil => intro s; exact monoTraceFrom_refl _ s
    | cons op ops ih =>
      intro s
      have hstep : MonoTraceFrom (addedRecords [op]) s (applyOp op s) := by
        cases op with
        | add maxRecords r =>
          rw [show addedRecords [StoreOp.add maxRecords r] =
            [withSyncedDefault r] by simp [addedRecords]]
          exact monoTraceFrom_add maxRecords s r
        | mark ids =>
          rw [show addedRecords [StoreOp.mark ids] = [] by
            simp [addedRecords]]
          exact monoTraceFrom_mark ids s
        | clear =>
          rw [show addedRecords [StoreOp.clear] = [] by
            simp [addedRecords]]
          exact monoTraceFrom_clear s
      rw [addedRecords_cons]
      exact monoTraceFrom_trans hstep (ih (applyOp op s))
  refine ⟨main ops s, ?_⟩
  intro r' hr'
  obtain ⟨old, kept, newRecs, hold, heq, hf, hnew⟩ := main ops s
  rw [heq] at hr'
  rcases List.mem_append.mp hr' with hk | hn
  · obtain ⟨x, hx, hmx⟩ := forall₂_mem_right hf r' hk
    exact Or.inl ⟨x, hold.subset hx, hmx⟩
  · obtain ⟨a, ha, hma⟩ := hnew r' hn
    exact Or.inr ⟨a, ha, hma⟩

end AtlasEdge
